import Mathlib

/-!
Verification of the Data-Studio rule-execution and scoring engine against its
specification.  The repository's `app.py` orchestrates the run (`page_dq`):
it builds a rulebook, executes all rules, detects combination duplicates,
and aggregates scores; the dashboard renderer (`render_static_dq_dashboard`)
is embedded from the source.  The engine services themselves
(`modules.data_quality_core`, `modules.reporting_core`) are imported by
`app.py` but their source is not part of the checked tree, so they are
modelled from the specification, as marked on each definition.
-/

namespace DataStudio

/-- A cell value of the dataset: either genuinely missing or a string.
Modelled from the spec: heterogeneous values are coerced per rule kind. -/
inductive Value
  | missing
  | str (s : String)
deriving DecidableEq, Repr

/-- ASCII lowercase of one character. -/
def lowerChar (c : Char) : Char :=
  if 'A' ≤ c && c ≤ 'Z' then Char.ofNat (c.toNat + 32) else c

/-- Whitespace test for trimming. -/
def isSpaceChar (c : Char) : Bool := c = ' ' || c = '\t' || c = '\n' || c = '\r'

/-- Strip leading and trailing whitespace from a character list. -/
def trimChars (l : List Char) : List Char :=
  ((l.dropWhile isSpaceChar).reverse.dropWhile isSpaceChar).reverse

/-- Trimmed, lowercased normal form of a string, used wherever the engine
matches free text case-insensitively. -/
def normKey (s : String) : String := String.mk ((trimChars s.toList).map lowerChar)

/-- ASCII lowercase of a string. -/
def lowerStr (s : String) : String := String.mk (s.toList.map lowerChar)

/-- Modelled from the spec: the recognized "blank" sentinels, compared
after trimming and lowercasing (`modules.data_quality_core` is not in the
checked tree). -/
def blankSentinels : List String := ["na", "n/a", "null", "none", "nan", "-"]

/-- Modelled from the spec: a value counts as missing iff it is absent,
the empty string, or a recognized blank sentinel. -/
def isMissingVal : Value → Bool
  | Value.missing => true
  | Value.str s => s = "" || blankSentinels.contains (normKey s)

/-- Coerce a value to text (missing becomes the empty string). -/
def toText : Value → String
  | Value.missing => ""
  | Value.str s => s

/-- Numeric value of a decimal digit character, if it is one. -/
def digitVal (c : Char) : Option Nat :=
  if c.isDigit then some (c.toNat - 48) else none

/-- Parse a nonempty all-digit character list as a natural number. -/
def parseDigits : List Char → Option Nat
  | [] => none
  | cs => cs.foldl (fun acc c =>
      match acc, digitVal c with
      | some n, some d => some (n * 10 + d)
      | _, _ => none) (some 0)

/-- Modelled from the spec: the shared to-number coercion
("cannot coerce ⇒ fail").  Accepts an optional leading minus sign, an
integer part and an optional fractional part. -/
def toNumber : Value → Option ℚ
  | Value.missing => none
  | Value.str s =>
    let t := trimChars s.toList
    let (neg, body) :=
      match t with
      | '-' :: rest => (true, rest)
      | l => (false, l)
    let (intPart, fracPart) :=
      match List.splitOn '.' body with
      | [ip] => (ip, ([] : List Char))
      | [ip, fp] => (ip, fp)
      | _ => ([], ['x'])
    match parseDigits intPart, fracPart with
    | some n, [] => some (if neg then -(n : ℚ) else (n : ℚ))
    | some n, fp =>
      match parseDigits fp with
      | some f =>
        let q : ℚ := (n : ℚ) + (f : ℚ) / ((10 : ℚ) ^ fp.length)
        some (if neg then -q else q)
      | none => none
    | none, _ => none

/-- One pattern character against one text character: '#' matches a digit,
'?' matches anything, every other character matches itself. -/
def matchChar (p c : Char) : Bool :=
  if p = '#' then c.isDigit else if p = '?' then true else p = c

/-- Modelled from the spec: full-match of a value's text against a
configured pattern (the repository's regex engine is not in the checked
tree; a simple character-class language stands in for it). -/
def patternFullMatch (pat s : String) : Bool :=
  pat.toList.length = s.toList.length &&
    (List.zip pat.toList s.toList).all (fun pc => matchChar pc.1 pc.2)

/-- The closed set of rule kinds, each carrying only its own parameters.
Modelled from the spec: not-null, uniqueness, pattern/format, numeric
range, allowed-values, and date-shape standardization. -/
inductive RuleKind
  | notNull
  | unique
  | patt (pat : String)
  | range (lo hi : Option ℚ)
  | allowed (vals : List String) (caseSensitive : Bool)
  | dateCheck
deriving DecidableEq, Repr

/-- An atomic rule: kind, quality dimension tag, failure message.
Modelled from the spec. -/
structure Rule where
  kind : RuleKind
  dimension : String
  message : String
deriving DecidableEq, Repr

/-- Ordered rulebook: columns in order of first appearance, rules within a
column in input order, plus ordered combination (duplicate-detection)
rules.  Modelled from the spec. -/
structure Rulebook where
  columnRules : List (String × List Rule)
  combos : List (List String)
deriving DecidableEq, Repr

/-- Column-major dataset: named columns with their value lists, plus the
row count. -/
structure Dataset where
  nrows : Nat
  cols : List (String × List Value)
deriving Repr

/-- Well-formed dataset: every column holds exactly `nrows` values. -/
def Dataset.WF (D : Dataset) : Prop :=
  ∀ p ∈ D.cols, (Prod.snd p).length = D.nrows

/-- Look up a column's values; a column absent from the dataset reads as
all-missing (build-time validation rules this out in normal runs). -/
def getColumnD (D : Dataset) (c : String) : List Value :=
  match D.cols.find? (fun p => p.1 == c) with
  | some p => p.2
  | none => List.replicate D.nrows Value.missing

/-- Per-value evaluation for the stateless rule kinds.
Modelled from the spec §4.2: not-null fails on missing/blank; pattern and
date rules fail on missing values (fail, not skip); range fails when the
value cannot be coerced to a number or is out of the inclusive bounds;
allowed-values fails iff the text is not a member of the set. -/
def evalOne (k : RuleKind) (v : Value) : Bool :=
  match k with
  | RuleKind.notNull => ! isMissingVal v
  | RuleKind.unique => true
  | RuleKind.patt pat =>
    if isMissingVal v then false else patternFullMatch pat (toText v)
  | RuleKind.range lo hi =>
    match toNumber v with
    | none => false
    | some q =>
      (match lo with | none => true | some a => decide (a ≤ q)) &&
      (match hi with | none => true | some b => decide (q ≤ b))
  | RuleKind.allowed vals cs =>
    match v with
    | Value.missing => false
    | Value.str s =>
      if cs then vals.contains s
      else (vals.map lowerStr).contains (lowerStr s)
  | RuleKind.dateCheck =>
    if isMissingVal v then false else patternFullMatch "####-##-##" (toText v)

/-- Single-column uniqueness pass flags: the first occurrence of a value
passes, later occurrences fail; missing values never count as duplicates.
Modelled from the spec §4.2. -/
def uniqueFlags (seen : List String) : List Value → List Bool
  | [] => []
  | v :: rest =>
    match v with
    | Value.missing => true :: uniqueFlags seen rest
    | Value.str s =>
      if isMissingVal (Value.str s) then true :: uniqueFlags seen rest
      else if seen.contains s then false :: uniqueFlags (s :: seen) rest
      else true :: uniqueFlags (s :: seen) rest

/-- Evaluate one rule kind over a whole column.  Modelled from the spec:
vectorized per-rule evaluation; only uniqueness is stateful. -/
def evalRule (k : RuleKind) (vals : List Value) : List Bool :=
  match k with
  | RuleKind.unique => uniqueFlags [] vals
  | _ => vals.map (evalOne k)

/-- One labelled pass/fail column of the outcome table: source column,
dimension tag and message are carried for traceability. -/
structure RCol where
  col : String
  dimension : String
  message : String
  passes : List Bool
deriving DecidableEq, Repr

/-- The wide outcome table: row count plus the ordered labelled rule
columns (column-rule evaluations followed by the merged
duplicate-detection columns).  Modelled from the spec. -/
structure OutcomeTable where
  nrows : Nat
  ruleCols : List RCol
deriving DecidableEq, Repr

/-- The value-tuple of row `i` over the combination's columns. -/
def rowKey (D : Dataset) (cs : List String) (i : Nat) : List Value :=
  cs.map (fun c => (getColumnD D c).getD i Value.missing)

/-- A combination key is complete when none of its components is missing. -/
def keyComplete (k : List Value) : Bool :=
  k.all (fun v => ! isMissingVal v)

/-- Duplicate flags for one combination rule: a row is flagged iff its
key is complete and at least one other row shares the same key.
Modelled from the spec §4.3 (grouping by value-tuple; rows with a missing
component are excluded). -/
def comboDupFlags (D : Dataset) (cs : List String) : List Bool :=
  let keys := (List.range D.nrows).map (rowKey D cs)
  keys.map (fun k => keyComplete k && decide (2 ≤ keys.countP (fun x => x = k)))

/-- Label for a merged duplicate-detection column; it is distinct from any
dataset column name, so it never feeds a single column's score. -/
def comboLabel (cs : List String) : String :=
  "combo:" ++ String.intercalate "+" cs

/-- The pass/fail columns for the (column, rule) pairs of the rulebook, in
the rulebook's column order and, within a column, rule order.
Modelled from the spec §4.2. -/
def columnRuleCols (D : Dataset) (R : Rulebook) : List RCol :=
  R.columnRules.flatMap (fun p =>
    p.2.map (fun r =>
      { col := p.1, dimension := r.dimension, message := r.message,
        passes := evalRule r.kind (getColumnD D p.1) }))

/-- The merged duplicate-detection columns, one per combination rule,
tagged with the Uniqueness dimension.  Modelled from the spec §4.3. -/
def comboCols (D : Dataset) (R : Rulebook) : List RCol :=
  R.combos.map (fun cs =>
    { col := comboLabel cs, dimension := "Uniqueness",
      message := "Duplicate combination", passes := (comboDupFlags D cs).map (fun b => ! b) })

/-- Modelled from the spec: `RuleExecutorEngine.execute_all_rules` —
evaluate every rule of the rulebook over the dataset and merge the
duplicate-detection flags, producing the wide outcome table
(`modules.data_quality_core` is not in the checked tree). -/
def execute_all_rules (D : Dataset) (R : Rulebook) : OutcomeTable :=
  { nrows := D.nrows, ruleCols := columnRuleCols D R ++ comboCols D R }

/-- Modelled from the spec: `RuleExecutorEngine.get_combination_duplicates`
— for each combination, the per-row duplicate flags. -/
def get_combination_duplicates (D : Dataset) (R : Rulebook) : List (List String × List Bool) :=
  R.combos.map (fun cs => (cs, comboDupFlags D cs))

/-- Number of passed evaluations in one rule column. -/
def colPasses (rc : RCol) : Nat := rc.passes.countP (fun b => b = true)

/-- Total evaluations of the outcome table (all rule columns). -/
def totalEvals (T : OutcomeTable) : Nat := (T.ruleCols.map (fun rc => rc.passes.length)).sum

/-- Passed evaluations of the outcome table (all rule columns). -/
def passEvals (T : OutcomeTable) : Nat := (T.ruleCols.map colPasses).sum

/-- The derived per-row issue tally: for each row position, the number of
rule columns whose entry for that row is a failure.  Modelled from the
spec §3 (`Count of issues`). -/
def countOfIssues (T : OutcomeTable) : List Nat :=
  (List.range T.nrows).map (fun i =>
    T.ruleCols.countP (fun rc => rc.passes.getD i true = false))

/-- Modelled from the spec: `ScoringService.calculate_overall_score` —
a single pass over all rule columns accumulating (passed, total), then
the percentage, with 0.0 when there is nothing to evaluate
(`modules.reporting_core` is not in the checked tree). -/
def calculate_overall_score (T : OutcomeTable) : ℚ :=
  let pt := T.ruleCols.foldl
    (fun (acc : Nat × Nat) rc => (acc.1 + colPasses rc, acc.2 + rc.passes.length)) (0, 0)
  if pt.2 = 0 then 0 else (pt.1 : ℚ) / (pt.2 : ℚ) * 100

/-- Modelled from the spec: `ScoringService.calculate_column_scores` —
per requested column, the pass percentage over the rule columns bound to
it; a column with zero evaluations is excluded. -/
def calculate_column_scores (T : OutcomeTable) (cols : List String) : List (String × ℚ) :=
  cols.filterMap (fun c =>
    let rel := T.ruleCols.filter (fun rc => rc.col == c)
    let tot := (rel.map (fun rc => rc.passes.length)).sum
    let pas := (rel.map colPasses).sum
    if tot = 0 then none else some (c, (pas : ℚ) / (tot : ℚ) * 100))

/-- Add one rule column's (passed, total) pair into a per-dimension tally
list, keyed by dimension tag, preserving first-appearance order. -/
def addTally (acc : List (String × Nat × Nat)) (d : String) (p t : Nat) :
    List (String × Nat × Nat) :=
  match acc with
  | [] => [(d, p, t)]
  | e :: rest =>
    if e.1 = d then (e.1, e.2.1 + p, e.2.2 + t) :: rest
    else e :: addTally rest d p t

/-- Per-dimension (passed, total) tallies over all rule columns. -/
def dimensionTallies (T : OutcomeTable) : List (String × Nat × Nat) :=
  T.ruleCols.foldl (fun acc rc => addTally acc rc.dimension (colPasses rc) rc.passes.length) []

/-- Modelled from the spec: `ScoringService.calculate_dimension_scores` —
pass percentage per dimension tag; a dimension with zero evaluations is
excluded, not defaulted. -/
def calculate_dimension_scores (T : OutcomeTable) : List (String × ℚ) :=
  (dimensionTallies T).filterMap (fun e =>
    if e.2.2 = 0 then none else some (e.1, (e.2.1 : ℚ) / (e.2.2 : ℚ) * 100))

/-- All boolean outcomes of the table flattened in order, used for the
independent cross-check of the overall score. -/
def flatOutcomes (T : OutcomeTable) : List Bool :=
  (T.ruleCols.map (fun rc => rc.passes)).flatten

/-- The overall score recomputed independently from the flattened boolean
columns of the outcome table. -/
def overallRecomputed (T : OutcomeTable) : ℚ :=
  let l := flatOutcomes T
  if l.length = 0 then 0 else ((l.countP (fun b => b = true) : Nat) : ℚ) / (l.length : ℚ) * 100

/-- Kind-specific parameters of one tabular rule row / structured rule
specification.  Modelled from the spec §4.1 ("additional columns become
rule parameters, e.g. `min`, `max`, `pattern`, `allowed_values`"). -/
structure Params where
  pat : Option String := none
  min : Option ℚ := none
  max : Option ℚ := none
  allowedVals : Option (List String) := none
  caseSensitive : Option Bool := none
deriving DecidableEq, Repr

/-- One record of the tabular rule source: `column_name`, free-text
`rule`, `dimension`, `message`, plus kind-specific parameters.
Modelled from the spec §4.1. -/
structure RuleRow where
  column_name : String
  rule : String
  dimension : String
  message : String
  params : Params := {}
deriving DecidableEq, Repr

/-- Modelled from the spec: resolve the free-text rule value into a
supported rule kind — exact matching on a fixed vocabulary,
case-insensitive, trimmed; `none` means unrecognized (skip-and-warn). -/
def resolveKind (r : String) (p : Params) : Option RuleKind :=
  let s := normKey r
  if s = "not null" then some RuleKind.notNull
  else if s = "unique" then some RuleKind.unique
  else if s = "pattern" then
    match p.pat with
    | some pt => some (RuleKind.patt pt)
    | none => none
  else if s = "range" then some (RuleKind.range p.min p.max)
  else if s = "allowed values" then
    match p.allowedVals with
    | some vs => some (RuleKind.allowed vs (p.caseSensitive.getD true))
    | none => none
  else if s = "date" then some RuleKind.dateCheck
  else none

/-- Append a resolved rule under its column, preserving first-appearance
column order and input rule order within a column. -/
def insertRule (acc : List (String × List Rule)) (c : String) (r : Rule) :
    List (String × List Rule) :=
  match acc with
  | [] => [(c, [r])]
  | e :: rest =>
    if e.1 = c then (e.1, e.2 ++ [r]) :: rest
    else e :: insertRule rest c r

/-- One step of the tabular grouping fold: a resolvable row is inserted
under its column, an unrecognized rule kind becomes a surfaced warning. -/
def bgStep (acc : List (String × List Rule) × List String) (row : RuleRow) :
    List (String × List Rule) × List String :=
  match resolveKind row.rule row.params with
  | some k =>
    (insertRule acc.1 row.column_name
      { kind := k, dimension := row.dimension, message := row.message }, acc.2)
  | none => (acc.1, acc.2 ++ [row.rule])

/-- Group the resolvable rows into ordered per-column rule lists,
collecting a warning for each skipped unrecognized rule kind. -/
def buildGroups (rows : List RuleRow) : List (String × List Rule) × List String :=
  rows.foldl bgStep ([], [])

/-- Modelled from the spec:
`RulebookBuilderService.build_from_rules_dataset(rule_rows, known_columns)`
— reject every row whose `column_name` is not a known column, batching all
offending columns into one build-time error; otherwise build the full
Rulebook (unrecognized rule kinds skipped with surfaced warnings).
`modules.data_quality_core` is not in the checked tree. -/
def build_from_rules_dataset (rows : List RuleRow) (known_columns : List String) :
    Except (List String) (Rulebook × List String) :=
  let offending := (rows.filter (fun r => ! known_columns.contains r.column_name)).map
    (fun r => r.column_name)
  if offending.isEmpty then
    let g := buildGroups rows
    Except.ok ({ columnRules := g.1, combos := [] }, g.2)
  else Except.error offending

/-- One rule specification of the structured rulebook document:
string-encoded kind, parameters, dimension, message.
Modelled from the spec §6. -/
structure RuleSpec where
  kind : String
  params : Params
  dimension : String
  message : String
deriving DecidableEq, Repr

/-- The structured rulebook interchange document: column name mapped to an
ordered list of rule specifications, plus combination-rule column sets.
Modelled from the spec §6. -/
structure RulebookDoc where
  columns : List (String × List RuleSpec)
  combos : List (List String)
deriving DecidableEq, Repr

/-- The canonical vocabulary string written for a rule kind on export. -/
def kindString : RuleKind → String
  | RuleKind.notNull => "not null"
  | RuleKind.unique => "unique"
  | RuleKind.patt _ => "pattern"
  | RuleKind.range _ _ => "range"
  | RuleKind.allowed _ _ => "allowed values"
  | RuleKind.dateCheck => "date"

/-- The parameters written for a rule kind on export. -/
def kindParams : RuleKind → Params
  | RuleKind.notNull => {}
  | RuleKind.unique => {}
  | RuleKind.patt pt => { pat := some pt }
  | RuleKind.range lo hi => { min := lo, max := hi }
  | RuleKind.allowed vs cs => { allowedVals := some vs, caseSensitive := some cs }
  | RuleKind.dateCheck => {}

/-- Modelled from the spec: `ExcelReportGenerator.save_rulebook_json` —
export a built Rulebook as the structured interchange document. -/
def save_rulebook_json (rb : Rulebook) : RulebookDoc :=
  { columns := rb.columnRules.map (fun p =>
      (p.1, p.2.map (fun r =>
        { kind := kindString r.kind, params := kindParams r.kind,
          dimension := r.dimension, message := r.message }))),
    combos := rb.combos }

/-- Modelled from the spec:
`RulebookBuilderService.load_json_rulebook` — reload a structured
document, validating that every rule kind is known; unknown kinds are
batched into one error. -/
def load_json_rulebook (doc : RulebookDoc) : Except (List String) Rulebook :=
  let bad := doc.columns.flatMap (fun p =>
    p.2.filterMap (fun sp =>
      match resolveKind sp.kind sp.params with
      | some _ => none
      | none => some sp.kind))
  if bad.isEmpty then
    Except.ok
      { columnRules := doc.columns.map (fun p =>
          (p.1, p.2.filterMap (fun sp =>
            (resolveKind sp.kind sp.params).map (fun k =>
              { kind := k, dimension := sp.dimension, message := sp.message })))),
        combos := doc.combos }
  else Except.error bad

/-- Embedded from `src/app.py` (`render_static_dq_dashboard`, the gauge
block): the ordered gauge mapping — the four fixed labels first, each
defaulting to 0.0 when absent from `dim_scores`, then any extra
dimensions appended. -/
def gauge_vals (dim_scores : List (String × ℚ)) : List (String × ℚ) :=
  let gauge_labels := ["Completeness", "Standardization", "Uniqueness", "Validation"]
  let base := gauge_labels.map (fun gl =>
    (gl, match dim_scores.find? (fun p => p.1 == gl) with
         | some p => p.2
         | none => 0))
  base ++ dim_scores.filter (fun p => ! gauge_labels.contains p.1)

/-- Embedded from `src/app.py`: `gauge_keys = list(gauge_vals.keys())[:4]`
— the labels of the gauges actually rendered. -/
def gauge_keys (dim_scores : List (String × ℚ)) : List String :=
  ((gauge_vals dim_scores).map Prod.fst).take 4

/-- Embedded from `src/app.py`: the (label, score) pairs of the rendered
gauges, in render order. -/
def rendered_gauges (dim_scores : List (String × ℚ)) : List (String × ℚ) :=
  (gauge_vals dim_scores).take 4

/-! ### Shared lemmas -/

lemma length_uniqueFlags (vals : List Value) : ∀ seen, (uniqueFlags seen vals).length = vals.length := by
  induction vals with
  | nil => intro seen; simp [uniqueFlags]
  | cons v rest ih =>
    intro seen
    cases v with
    | missing => simp [uniqueFlags, ih]
    | str s =>
      by_cases h1 : isMissingVal (Value.str s) = true
      · simp [uniqueFlags, h1, ih]
      · by_cases h2 : s ∈ seen
        · simp [uniqueFlags, h1, h2, ih]
        · simp [uniqueFlags, h1, h2, ih]

lemma length_evalRule (k : RuleKind) (vals : List Value) :
    (evalRule k vals).length = vals.length := by
  cases k with
  | unique => exact length_uniqueFlags vals []
  | notNull => simp [evalRule]
  | patt p => simp [evalRule]
  | range lo hi => simp [evalRule]
  | allowed vs cs => simp [evalRule]
  | dateCheck => simp [evalRule]

lemma length_getColumnD (D : Dataset) (c : String) (hWF : D.WF) :
    (getColumnD D c).length = D.nrows := by
  unfold getColumnD
  cases hfind : D.cols.find? (fun p => p.1 == c) with
  | none => simp
  | some p => exact hWF p (List.mem_of_find?_eq_some hfind)

lemma score_foldl (l : List RCol) (a b : Nat) :
    l.foldl (fun (acc : Nat × Nat) rc => (acc.1 + colPasses rc, acc.2 + rc.passes.length)) (a, b)
      = (a + (l.map colPasses).sum, b + (l.map (fun rc => rc.passes.length)).sum) := by
  induction l generalizing a b with
  | nil => simp
  | cons rc rest ih => simp [ih, Nat.add_assoc]

lemma calculate_overall_score_eq (T : OutcomeTable) :
    calculate_overall_score T =
      if totalEvals T = 0 then 0 else (passEvals T : ℚ) / (totalEvals T : ℚ) * 100 := by
  unfold calculate_overall_score passEvals totalEvals
  rw [score_foldl]
  simp

lemma addTally_psum (acc : List (String × Nat × Nat)) (d : String) (p t : Nat) :
    ((addTally acc d p t).map (fun e => e.2.1)).sum = (acc.map (fun e => e.2.1)).sum + p := by
  induction acc with
  | nil => simp [addTally]
  | cons e rest ih =>
    by_cases h : e.1 = d
    · simp [addTally, h, Nat.add_assoc, Nat.add_comm p]
    · simp [addTally, h, ih, Nat.add_assoc]

lemma addTally_tsum (acc : List (String × Nat × Nat)) (d : String) (p t : Nat) :
    ((addTally acc d p t).map (fun e => e.2.2)).sum = (acc.map (fun e => e.2.2)).sum + t := by
  induction acc with
  | nil => simp [addTally]
  | cons e rest ih =>
    by_cases h : e.1 = d
    · simp [addTally, h, Nat.add_assoc, Nat.add_comm t]
    · simp [addTally, h, ih, Nat.add_assoc]

lemma tallies_foldl_psum (l : List RCol) (acc : List (String × Nat × Nat)) :
    ((l.foldl (fun acc rc => addTally acc rc.dimension (colPasses rc) rc.passes.length) acc).map
        (fun e => e.2.1)).sum
      = (acc.map (fun e => e.2.1)).sum + (l.map colPasses).sum := by
  induction l generalizing acc with
  | nil => simp
  | cons rc rest ih => simp [ih, addTally_psum, Nat.add_assoc]

lemma tallies_foldl_tsum (l : List RCol) (acc : List (String × Nat × Nat)) :
    ((l.foldl (fun acc rc => addTally acc rc.dimension (colPasses rc) rc.passes.length) acc).map
        (fun e => e.2.2)).sum
      = (acc.map (fun e => e.2.2)).sum + (l.map (fun rc => rc.passes.length)).sum := by
  induction l generalizing acc with
  | nil => simp
  | cons rc rest ih => simp [ih, addTally_tsum, Nat.add_assoc]

lemma length_comboDupFlags (D : Dataset) (cs : List String) :
    (comboDupFlags D cs).length = D.nrows := by
  simp [comboDupFlags]

lemma getColumnD_single (n : Nat) (vs : List Value) :
    getColumnD ⟨n, [("c", vs)]⟩ "c" = vs := by
  simp [getColumnD]

lemma all_missing_score (k : RuleKind) (dLabel m : String) (n : Nat) (h : 0 < n)
    (h0 : evalOne k Value.missing = false) (hku : k ≠ RuleKind.unique) :
    calculate_column_scores
      (execute_all_rules ⟨n, [("c", List.replicate n Value.missing)]⟩
        ⟨[("c", [⟨k, dLabel, m⟩])], []⟩) ["c"] = [("c", 0)] := by
  have hev : evalRule k (List.replicate n Value.missing) = List.replicate n false := by
    have hmap : evalRule k (List.replicate n Value.missing)
        = (List.replicate n Value.missing).map (evalOne k) := by
      cases k with
      | unique => exact absurd rfl hku
      | notNull => rfl
      | patt p => rfl
      | range lo hi => rfl
      | allowed vs cs => rfl
      | dateCheck => rfl
    rw [hmap, List.map_replicate, h0]
  have hn : n ≠ 0 := Nat.pos_iff_ne_zero.mp h
  simp [calculate_column_scores, execute_all_rules, columnRuleCols, comboCols,
    getColumnD_single, hev, colPasses, hn]

lemma two_le_countP_iff {α : Type} [DecidableEq α] (l : List α) (q : α → Bool) (i : α)
    (hi : i ∈ l) (hq : q i = true) (hnd : l.Nodup) :
    2 ≤ l.countP q ↔ ∃ j ∈ l, j ≠ i ∧ q j = true := by
  rw [List.countP_eq_length_filter]
  have hfil : (l.filter q).Nodup := hnd.filter q
  constructor
  · intro h2
    by_contra hno
    push_neg at hno
    have hall : ∀ x ∈ l.filter q, x = i := by
      intro x hx
      have hxl := (List.mem_filter.mp hx).1
      have hxq := (List.mem_filter.mp hx).2
      by_contra hne
      exact absurd hxq (hno x hxl hne)
    rcases hfq : l.filter q with _ | ⟨x, xs⟩
    · rw [hfq] at h2; simp at h2
    · have hx : x = i := hall x (by rw [hfq]; exact List.mem_cons_self x xs)
      have hxs : xs = [] := by
        rcases hys : xs with _ | ⟨y, ys⟩
        · rfl
        · have hy : y = i := hall y (by rw [hfq, hys]; simp)
          rw [hfq, hys] at hfil
          have hnin := (List.nodup_cons.mp hfil).1
          exact absurd (by rw [hx, ← hy]; simp : x ∈ y :: ys) hnin
      rw [hfq, hxs] at h2
      simp at h2
  · rintro ⟨j, hjl, hji, hjq⟩
    have hif : i ∈ l.filter q := List.mem_filter.mpr ⟨hi, hq⟩
    have hjf : j ∈ l.filter q := List.mem_filter.mpr ⟨hjl, hjq⟩
    have hsub : ({i, j} : Finset α) ⊆ (l.filter q).toFinset := by
      intro x hx
      rcases Finset.mem_insert.mp hx with rfl | hx2
      · exact List.mem_toFinset.mpr hif
      · rw [Finset.mem_singleton.mp hx2]
        exact List.mem_toFinset.mpr hjf
    have hcard : ({i, j} : Finset α).card = 2 := by
      rw [Finset.card_insert_of_not_mem (by simp [Ne.symm hji]), Finset.card_singleton]
    calc 2 = ({i, j} : Finset α).card := hcard.symm
      _ ≤ (l.filter q).toFinset.card := Finset.card_le_card hsub
      _ = (l.filter q).length := by rw [List.toFinset_card_of_nodup hfil]

lemma comboDupFlags_getD (D : Dataset) (cs : List String) (i : Nat) (hi : i < D.nrows) :
    (comboDupFlags D cs).getD i false =
      (keyComplete (rowKey D cs i) &&
        decide (2 ≤ ((List.range D.nrows).map (rowKey D cs)).countP
          (fun x => x = rowKey D cs i))) := by
  unfold comboDupFlags
  rw [List.getD_eq_getElem?_getD]
  simp [List.getElem?_map, List.getElem?_range hi]

lemma insertRule_count (acc : List (String × List Rule)) (c : String) (r : Rule) :
    ((insertRule acc c r).map (fun p => p.2.length)).sum
      = (acc.map (fun p => p.2.length)).sum + 1 := by
  induction acc with
  | nil => simp [insertRule]
  | cons e rest ih =>
    by_cases h : e.1 = c
    · simp [insertRule, h, Nat.add_assoc, Nat.add_comm 1]
    · simp [insertRule, h, ih, Nat.add_assoc]

lemma bg_foldl_count (rows : List RuleRow) :
    ∀ (acc : List (String × List Rule)) (w : List String),
      (((rows.foldl bgStep (acc, w)).1).map (fun p => p.2.length)).sum
          + ((rows.foldl bgStep (acc, w)).2).length
        = (acc.map (fun p => p.2.length)).sum + w.length + rows.length := by
  induction rows with
  | nil => intro acc w; simp
  | cons row rest ih =>
    intro acc w
    rw [List.foldl_cons]
    cases hres : resolveKind row.rule row.params with
    | some k =>
      rw [show bgStep (acc, w) row =
        (insertRule acc row.column_name
          { kind := k, dimension := row.dimension, message := row.message }, w) by
          simp [bgStep, hres]]
      rw [ih]
      simp [insertRule_count]
      omega
    | none =>
      rw [show bgStep (acc, w) row = (acc, w ++ [row.rule]) by simp [bgStep, hres]]
      rw [ih]
      simp
      omega

lemma resolveKind_kindString (k : RuleKind) :
    resolveKind (kindString k) (kindParams k) = some k := by
  cases k <;> rfl

lemma load_save_roundtrip (rb : Rulebook) :
    load_json_rulebook (save_rulebook_json rb) = Except.ok rb := by
  have hbad : (save_rulebook_json rb).columns.flatMap (fun p =>
      p.2.filterMap (fun sp =>
        match resolveKind sp.kind sp.params with
        | some _ => none
        | none => some sp.kind)) = [] := by
    rw [List.flatMap_eq_nil_iff.mpr]
    intro x hx
    simp only [save_rulebook_json, List.mem_map] at hx
    obtain ⟨p, hp, rfl⟩ := hx
    rw [List.filterMap_map]
    apply List.filterMap_eq_nil_iff.mpr
    intro r hr
    simp [resolveKind_kindString]
  have hinner : ∀ (l : List Rule), l.filterMap (fun r =>
      (resolveKind (kindString r.kind) (kindParams r.kind)).map (fun k =>
        ({ kind := k, dimension := r.dimension, message := r.message } : Rule))) = l := by
    intro l
    induction l with
    | nil => rfl
    | cons r rest ih =>
      rw [List.filterMap_cons]
      simp only [resolveKind_kindString, Option.map_some']
      exact congrArg (fun t => r :: t) (List.filterMap_some rest)
  have hrec : (save_rulebook_json rb).columns.map (fun p =>
      (p.1, p.2.filterMap (fun sp =>
        (resolveKind sp.kind sp.params).map (fun k =>
          ({ kind := k, dimension := sp.dimension, message := sp.message } : Rule)))))
      = rb.columnRules := by
    simp only [save_rulebook_json, List.map_map]
    conv_rhs => rw [← List.map_id rb.columnRules]
    apply List.map_congr_left
    intro p hp
    simp only [Function.comp, id_eq, List.filterMap_map]
    show (p.1, List.filterMap (fun r => Option.map (fun k =>
        ({ kind := k, dimension := r.dimension, message := r.message } : Rule))
        (resolveKind (kindString r.kind) (kindParams r.kind))) p.2) = p
    rw [hinner p.2]
  simp only [load_json_rulebook, hbad, List.isEmpty_nil, if_true]
  rw [hrec]
  rfl

/-! ### Claim theorems -/

/-- C10: `render_static_dq_dashboard` renders exactly four dimension
gauges, always labeled Completeness, Standardization, Uniqueness,
Validation; a label absent from the dimension-score mapping shows 0.0,
and a custom dimension outside the four is never rendered as a gauge. -/
theorem c10_four_fixed_gauges (dim_scores : List (String × ℚ)) :
    gauge_keys dim_scores = ["Completeness", "Standardization", "Uniqueness", "Validation"] ∧
    rendered_gauges dim_scores =
      ["Completeness", "Standardization", "Uniqueness", "Validation"].map (fun gl =>
        (gl, match dim_scores.find? (fun p => p.1 == gl) with
             | some p => p.2
             | none => 0)) := by
  constructor
  · simp [gauge_keys, gauge_vals, List.take_append_of_le_length]
  · simp [rendered_gauges, gauge_vals, List.take_append_of_le_length]

/-- C4: the overall score is the passed fraction of all evaluations in
the outcome table times 100; with zero evaluable rules or zero rule
columns it is exactly 0; and the totals over an executed table are the
union of the column-rule and duplicate-detection evaluations. -/
theorem c4_overall_score (T : OutcomeTable) (D : Dataset) (R : Rulebook) :
    (totalEvals T = 0 → calculate_overall_score T = 0) ∧
    (totalEvals T ≠ 0 →
      calculate_overall_score T = (passEvals T : ℚ) / (totalEvals T : ℚ) * 100) ∧
    (T.ruleCols = [] → calculate_overall_score T = 0) ∧
    totalEvals (execute_all_rules D R) =
      ((columnRuleCols D R).map (fun rc => rc.passes.length)).sum +
        ((comboCols D R).map (fun rc => rc.passes.length)).sum ∧
    passEvals (execute_all_rules D R) =
      ((columnRuleCols D R).map colPasses).sum + ((comboCols D R).map colPasses).sum := by
  refine ⟨?_, ?_, ?_, ?_, ?_⟩
  · intro h; rw [calculate_overall_score_eq, if_pos h]
  · intro h; rw [calculate_overall_score_eq, if_neg h]
  · intro h
    rw [calculate_overall_score_eq, if_pos]
    simp [totalEvals, h]
  · simp [totalEvals, execute_all_rules]
  · simp [passEvals, execute_all_rules]

/-- C4 witness at a concrete outcome table, dataset and rulebook. -/
theorem c4_overall_score_witness :
    (totalEvals ⟨1, [⟨"c", "d", "m", [true, false]⟩]⟩ = 0 →
      calculate_overall_score ⟨1, [⟨"c", "d", "m", [true, false]⟩]⟩ = 0) ∧
    (totalEvals ⟨1, [⟨"c", "d", "m", [true, false]⟩]⟩ ≠ 0 →
      calculate_overall_score ⟨1, [⟨"c", "d", "m", [true, false]⟩]⟩ =
        ((passEvals ⟨1, [⟨"c", "d", "m", [true, false]⟩]⟩ : Nat) : ℚ) /
          ((totalEvals ⟨1, [⟨"c", "d", "m", [true, false]⟩]⟩ : Nat) : ℚ) * 100) ∧
    ((⟨1, [⟨"c", "d", "m", [true, false]⟩]⟩ : OutcomeTable).ruleCols = [] →
      calculate_overall_score ⟨1, [⟨"c", "d", "m", [true, false]⟩]⟩ = 0) ∧
    totalEvals (execute_all_rules ⟨1, [("a", [Value.missing])]⟩ ⟨[("a", [⟨RuleKind.notNull, "Completeness", "m"⟩])], []⟩) =
      ((columnRuleCols ⟨1, [("a", [Value.missing])]⟩ ⟨[("a", [⟨RuleKind.notNull, "Completeness", "m"⟩])], []⟩).map
          (fun rc => rc.passes.length)).sum +
        ((comboCols ⟨1, [("a", [Value.missing])]⟩ ⟨[("a", [⟨RuleKind.notNull, "Completeness", "m"⟩])], []⟩).map
          (fun rc => rc.passes.length)).sum ∧
    passEvals (execute_all_rules ⟨1, [("a", [Value.missing])]⟩ ⟨[("a", [⟨RuleKind.notNull, "Completeness", "m"⟩])], []⟩) =
      ((columnRuleCols ⟨1, [("a", [Value.missing])]⟩ ⟨[("a", [⟨RuleKind.notNull, "Completeness", "m"⟩])], []⟩).map colPasses).sum +
        ((comboCols ⟨1, [("a", [Value.missing])]⟩ ⟨[("a", [⟨RuleKind.notNull, "Completeness", "m"⟩])], []⟩).map colPasses).sum :=
  c4_overall_score ⟨1, [⟨"c", "d", "m", [true, false]⟩]⟩
    ⟨1, [("a", [Value.missing])]⟩ ⟨[("a", [⟨RuleKind.notNull, "Completeness", "m"⟩])], []⟩

/-- C1: on a well-formed dataset whose columns cover the rulebook, the
outcome table keeps the dataset's row count in every rule column (rows in
positional order), and carries exactly one labelled pass/fail column per
(column, rule) pair, in the rulebook's column order and rule order,
followed by the duplicate-detection columns. -/
theorem c1_outcome_table_shape (D : Dataset) (R : Rulebook) (hWF : D.WF)
    (hcols : ∀ p ∈ R.columnRules, ∃ q ∈ D.cols, q.1 = p.1) :
    (execute_all_rules D R).nrows = D.nrows ∧
    (∀ rc ∈ (execute_all_rules D R).ruleCols, rc.passes.length = D.nrows) ∧
    (execute_all_rules D R).ruleCols = columnRuleCols D R ++ comboCols D R ∧
    (columnRuleCols D R).map (fun rc => (rc.col, rc.dimension, rc.message))
      = R.columnRules.flatMap (fun p => p.2.map (fun r => (p.1, r.dimension, r.message))) := by
  refine ⟨rfl, ?_, rfl, ?_⟩
  · intro rc hrc
    have hrc2 : rc ∈ columnRuleCols D R ++ comboCols D R := hrc
    rcases List.mem_append.mp hrc2 with hmem | hmem
    · simp only [columnRuleCols, List.mem_flatMap, List.mem_map] at hmem
      obtain ⟨p, hp, r, hr, rfl⟩ := hmem
      simp [length_evalRule, length_getColumnD D p.1 hWF]
    · simp only [comboCols, List.mem_map] at hmem
      obtain ⟨cs, hcs, rfl⟩ := hmem
      simp [length_comboDupFlags]
  · unfold columnRuleCols
    rw [List.map_flatMap]
    congr 1
    funext p
    rw [List.map_map]
    rfl

/-- C1 witness at a concrete well-formed dataset and covering rulebook. -/
theorem c1_outcome_table_shape_witness :
    (execute_all_rules ⟨2, [("a", [Value.str "x", Value.missing])]⟩
        ⟨[("a", [⟨RuleKind.notNull, "Completeness", "m"⟩])], [["a"]]⟩).nrows = 2 ∧
    (∀ rc ∈ (execute_all_rules ⟨2, [("a", [Value.str "x", Value.missing])]⟩
        ⟨[("a", [⟨RuleKind.notNull, "Completeness", "m"⟩])], [["a"]]⟩).ruleCols,
      rc.passes.length = 2) ∧
    (execute_all_rules ⟨2, [("a", [Value.str "x", Value.missing])]⟩
        ⟨[("a", [⟨RuleKind.notNull, "Completeness", "m"⟩])], [["a"]]⟩).ruleCols =
      columnRuleCols ⟨2, [("a", [Value.str "x", Value.missing])]⟩
          ⟨[("a", [⟨RuleKind.notNull, "Completeness", "m"⟩])], [["a"]]⟩ ++
        comboCols ⟨2, [("a", [Value.str "x", Value.missing])]⟩
          ⟨[("a", [⟨RuleKind.notNull, "Completeness", "m"⟩])], [["a"]]⟩ ∧
    (columnRuleCols ⟨2, [("a", [Value.str "x", Value.missing])]⟩
        ⟨[("a", [⟨RuleKind.notNull, "Completeness", "m"⟩])], [["a"]]⟩).map
        (fun rc => (rc.col, rc.dimension, rc.message))
      = [("a", [⟨RuleKind.notNull, "Completeness", "m"⟩])].flatMap
          (fun p => (Prod.snd p).map (fun r => (p.1, Rule.dimension r, Rule.message r))) :=
  c1_outcome_table_shape ⟨2, [("a", [Value.str "x", Value.missing])]⟩
    ⟨[("a", [⟨RuleKind.notNull, "Completeness", "m"⟩])], [["a"]]⟩
    (by intro p hp; simp at hp; simp [Dataset.WF, hp])
    (by intro p hp; simp at hp; exact ⟨("a", [Value.str "x", Value.missing]), by simp, by simp [hp]⟩)

/-- C2: a not-null rule fails exactly on missing/blank values; a format
rule fails (not skips) on every missing value; and a column whose values
are 100% missing scores 0% under a sole not-null rule and 0% under a sole
format rule, never skipped. -/
theorem c2_missing_value_policy (v : Value) (pat : String) (n : Nat) (h : 0 < n) :
    (evalOne RuleKind.notNull v = false ↔ isMissingVal v = true) ∧
    (isMissingVal v = true → evalOne (RuleKind.patt pat) v = false) ∧
    calculate_column_scores
      (execute_all_rules ⟨n, [("c", List.replicate n Value.missing)]⟩
        ⟨[("c", [⟨RuleKind.notNull, "Completeness", "m1"⟩])], []⟩) ["c"] = [("c", 0)] ∧
    calculate_column_scores
      (execute_all_rules ⟨n, [("c", List.replicate n Value.missing)]⟩
        ⟨[("c", [⟨RuleKind.patt pat, "Validation", "m2"⟩])], []⟩) ["c"] = [("c", 0)] := by
  refine ⟨?_, ?_, ?_, ?_⟩
  · simp [evalOne]
  · intro hm; simp [evalOne, hm]
  · exact all_missing_score RuleKind.notNull "Completeness" "m1" n h (by simp [evalOne, isMissingVal]) (by simp)
  · exact all_missing_score (RuleKind.patt pat) "Validation" "m2" n h (by simp [evalOne, isMissingVal]) (by simp)

/-- C2 witness at a concrete value, pattern and row count. -/
theorem c2_missing_value_policy_witness :
    (evalOne RuleKind.notNull (Value.str "x") = false ↔ isMissingVal (Value.str "x") = true) ∧
    (isMissingVal (Value.str "x") = true → evalOne (RuleKind.patt "##") (Value.str "x") = false) ∧
    calculate_column_scores
      (execute_all_rules ⟨2, [("c", List.replicate 2 Value.missing)]⟩
        ⟨[("c", [⟨RuleKind.notNull, "Completeness", "m1"⟩])], []⟩) ["c"] = [("c", 0)] ∧
    calculate_column_scores
      (execute_all_rules ⟨2, [("c", List.replicate 2 Value.missing)]⟩
        ⟨[("c", [⟨RuleKind.patt "##", "Validation", "m2"⟩])], []⟩) ["c"] = [("c", 0)] :=
  c2_missing_value_policy (Value.str "x") "##" 2 (by decide)

/-- C6: rule evaluation is total — a value that cannot be coerced to a
number fails a range rule deterministically instead of raising, every
rule kind produces exactly one outcome per input value, and the stateless
kinds evaluate each cell independently (the executor continues past any
malformed cell). -/
theorem c6_evaluation_totality (v : Value) (lo hi : Option ℚ) (k k2 : RuleKind)
    (vals vals2 : List Value) (hv : toNumber v = none) (hk : k ≠ RuleKind.unique) :
    evalOne (RuleKind.range lo hi) v = false ∧
    (evalRule k2 vals2).length = vals2.length ∧
    evalRule k vals = vals.map (evalOne k) := by
  refine ⟨?_, length_evalRule k2 vals2, ?_⟩
  · simp [evalOne, hv]
  · cases k with
    | unique => exact absurd rfl hk
    | notNull => rfl
    | patt p => rfl
    | range a b => rfl
    | allowed vs cs => rfl
    | dateCheck => rfl

/-- C6 witness: a non-numeric string under a range rule. -/
theorem c6_evaluation_totality_witness :
    evalOne (RuleKind.range (some 0) (some 10)) (Value.str "abc") = false ∧
    (evalRule RuleKind.unique [Value.str "a", Value.str "a"]).length =
      ([Value.str "a", Value.str "a"] : List Value).length ∧
    evalRule RuleKind.notNull [Value.str "abc", Value.missing] =
      ([Value.str "abc", Value.missing] : List Value).map (evalOne RuleKind.notNull) :=
  c6_evaluation_totality (Value.str "abc") (some 0) (some 10) RuleKind.notNull
    RuleKind.unique [Value.str "abc", Value.missing] [Value.str "a", Value.str "a"]
    rfl (by simp)

/-- C3: under a combination rule, a row with a complete value-tuple is
flagged as a duplicate exactly when at least one other row shares the
same tuple (so every member of every group of size > 1 is flagged), and a
row with a missing value in any column of the combination is never
flagged. -/
theorem c3_combination_duplicates (D : Dataset) (cs : List String) (i : Nat)
    (hi : i < D.nrows) :
    ((comboDupFlags D cs).getD i false = true ↔
      keyComplete (rowKey D cs i) = true ∧
        ∃ j, j < D.nrows ∧ j ≠ i ∧ rowKey D cs j = rowKey D cs i) ∧
    (keyComplete (rowKey D cs i) = false → (comboDupFlags D cs).getD i false = false) := by
  have hkey : ((List.range D.nrows).map (rowKey D cs)).countP
        (fun x => x = rowKey D cs i)
      = (List.range D.nrows).countP (fun j => decide (rowKey D cs j = rowKey D cs i)) := by
    rw [List.countP_map]
    rfl
  have hcnt : 2 ≤ (List.range D.nrows).countP
        (fun j => decide (rowKey D cs j = rowKey D cs i)) ↔
      ∃ j ∈ List.range D.nrows, j ≠ i ∧ rowKey D cs j = rowKey D cs i := by
    rw [two_le_countP_iff (List.range D.nrows) _ i (List.mem_range.mpr hi)
      (by simp) (List.nodup_range D.nrows)]
    simp
  constructor
  · rw [comboDupFlags_getD D cs i hi]
    simp only [Bool.and_eq_true, decide_eq_true_eq, hkey, hcnt]
    constructor
    · rintro ⟨h1, j, hj, hne, hk⟩
      exact ⟨h1, j, List.mem_range.mp hj, hne, hk⟩
    · rintro ⟨h1, j, hj, hne, hk⟩
      exact ⟨h1, j, List.mem_range.mpr hj, hne, hk⟩
  · intro hmiss
    rw [comboDupFlags_getD D cs i hi, hmiss]
    simp

/-- C3 witness: three rows sharing a complete (A,B) tuple are all
flagged, checked at row 0 of a concrete dataset. -/
theorem c3_combination_duplicates_witness :
    ((comboDupFlags
          ⟨3, [("A", [Value.str "x", Value.str "x", Value.str "x"]),
               ("B", [Value.str "y", Value.str "y", Value.str "y"])]⟩
          ["A", "B"]).getD 0 false = true ↔
      keyComplete (rowKey
          ⟨3, [("A", [Value.str "x", Value.str "x", Value.str "x"]),
               ("B", [Value.str "y", Value.str "y", Value.str "y"])]⟩
          ["A", "B"] 0) = true ∧
        ∃ j, j < (3 : Nat) ∧ j ≠ 0 ∧
          rowKey ⟨3, [("A", [Value.str "x", Value.str "x", Value.str "x"]),
               ("B", [Value.str "y", Value.str "y", Value.str "y"])]⟩ ["A", "B"] j
            = rowKey ⟨3, [("A", [Value.str "x", Value.str "x", Value.str "x"]),
               ("B", [Value.str "y", Value.str "y", Value.str "y"])]⟩ ["A", "B"] 0) ∧
    (keyComplete (rowKey
          ⟨3, [("A", [Value.str "x", Value.str "x", Value.str "x"]),
               ("B", [Value.str "y", Value.str "y", Value.str "y"])]⟩
          ["A", "B"] 0) = false →
      (comboDupFlags
          ⟨3, [("A", [Value.str "x", Value.str "x", Value.str "x"]),
               ("B", [Value.str "y", Value.str "y", Value.str "y"])]⟩
          ["A", "B"]).getD 0 false = false) :=
  c3_combination_duplicates
    ⟨3, [("A", [Value.str "x", Value.str "x", Value.str "x"]),
         ("B", [Value.str "y", Value.str "y", Value.str "y"])]⟩
    ["A", "B"] 0 (by decide)

/-- C7: the rulebook builder rejects every rule row whose column is
unknown, failing with the batched list of all offending columns; it
succeeds exactly when every row's column is known, and a successful build
is complete — every input row is either a rule of the rulebook or a
surfaced warning, never silently dropped. -/
theorem c7_builder_batched_errors (rows : List RuleRow) (known : List String) :
    (build_from_rules_dataset rows known =
        Except.error ((rows.filter (fun r => ! known.contains r.column_name)).map
          (fun r => r.column_name)) ↔
      ∃ r ∈ rows, known.contains r.column_name = false) ∧
    ((∀ r ∈ rows, known.contains r.column_name = true) ↔
      ∃ rbw, build_from_rules_dataset rows known = Except.ok rbw) ∧
    (∀ rb warns, build_from_rules_dataset rows known = Except.ok (rb, warns) →
      (rb.columnRules.map (fun p => p.2.length)).sum + warns.length = rows.length) := by
  have hbuild : build_from_rules_dataset rows known =
      (if ((rows.filter (fun r => ! known.contains r.column_name)).map
          (fun r => r.column_name)).isEmpty
        then Except.ok
          (({ columnRules := (buildGroups rows).1, combos := [] } : Rulebook),
            (buildGroups rows).2)
        else Except.error ((rows.filter (fun r => ! known.contains r.column_name)).map
          (fun r => r.column_name))) := rfl
  have hoff : ((rows.filter (fun r => ! known.contains r.column_name)).map
      (fun r => r.column_name)).isEmpty = true ↔
      ∀ r ∈ rows, known.contains r.column_name = true := by
    rw [List.isEmpty_iff, List.map_eq_nil_iff, List.filter_eq_nil_iff]
    constructor
    · intro h r hr
      have := h r hr
      simpa using this
    · intro h r hr
      simpa using h r hr
  refine ⟨⟨?_, ?_⟩, ⟨?_, ?_⟩, ?_⟩
  · intro heq
    by_cases hemp : ((rows.filter (fun r => ! known.contains r.column_name)).map
        (fun r => r.column_name)).isEmpty = true
    · rw [hbuild, if_pos hemp] at heq
      exact absurd heq (by simp)
    · have hnall : ¬ ∀ r ∈ rows, known.contains r.column_name = true :=
        fun hall => hemp (hoff.mpr hall)
      push_neg at hnall
      obtain ⟨r, hr, hc⟩ := hnall
      exact ⟨r, hr, by simpa using hc⟩
  · rintro ⟨r, hr, hc⟩
    have hne : ¬ ((rows.filter (fun r => ! known.contains r.column_name)).map
        (fun r => r.column_name)).isEmpty = true := by
      intro hemp
      rw [hoff.mp hemp r hr] at hc
      exact Bool.true_eq_false.mp hc
    rw [hbuild, if_neg hne]
  · intro hall
    exact ⟨_, by rw [hbuild, if_pos (hoff.mpr hall)]⟩
  · rintro ⟨rbw, hok⟩ r hr
    by_cases hemp : ((rows.filter (fun r => ! known.contains r.column_name)).map
        (fun r => r.column_name)).isEmpty = true
    · exact hoff.mp hemp r hr
    · rw [hbuild, if_neg hemp] at hok
      exact absurd hok (by simp)
  · intro rb warns hok
    by_cases hemp : ((rows.filter (fun r => ! known.contains r.column_name)).map
        (fun r => r.column_name)).isEmpty = true
    · rw [hbuild, if_pos hemp] at hok
      simp only [Except.ok.injEq, Prod.mk.injEq] at hok
      obtain ⟨hrb, hw⟩ := hok
      rw [← hrb, ← hw]
      have := bg_foldl_count rows [] []
      simpa [buildGroups] using this
    · rw [hbuild, if_neg hemp] at hok
      exact absurd hok (by simp)

/-- C7 witness: one known and one unknown column row. -/
theorem c7_builder_batched_errors_witness :
    ((build_from_rules_dataset [⟨"a", "not null", "Completeness", "m", {}⟩] ["a"] =
        Except.error ((([⟨"a", "not null", "Completeness", "m", {}⟩] : List RuleRow).filter
          (fun r => ! (["a"] : List String).contains r.column_name)).map
          (fun r => r.column_name)) ↔
      ∃ r ∈ ([⟨"a", "not null", "Completeness", "m", {}⟩] : List RuleRow),
        (["a"] : List String).contains r.column_name = false) ∧
    ((∀ r ∈ ([⟨"a", "not null", "Completeness", "m", {}⟩] : List RuleRow),
        (["a"] : List String).contains r.column_name = true) ↔
      ∃ rbw, build_from_rules_dataset [⟨"a", "not null", "Completeness", "m", {}⟩] ["a"] =
        Except.ok rbw) ∧
    (∀ rb warns,
      build_from_rules_dataset [⟨"a", "not null", "Completeness", "m", {}⟩] ["a"] =
        Except.ok (rb, warns) →
      (rb.columnRules.map (fun p => p.2.length)).sum + warns.length =
        ([⟨"a", "not null", "Completeness", "m", {}⟩] : List RuleRow).length)) :=
  c7_builder_batched_errors [⟨"a", "not null", "Completeness", "m", {}⟩] ["a"]

/-- C8: a Rulebook built from a tabular source survives the structured
document round-trip (export then reload) unchanged, so the executor
outcome table on any dataset is identical to that of the original
Rulebook. -/
theorem c8_round_trip (rows : List RuleRow) (known : List String) (D : Dataset)
    (rb : Rulebook) (warns : List String)
    (hok : build_from_rules_dataset rows known = Except.ok (rb, warns)) :
    load_json_rulebook (save_rulebook_json rb) = Except.ok rb ∧
    ∃ rb2, load_json_rulebook (save_rulebook_json rb) = Except.ok rb2 ∧
      execute_all_rules D rb2 = execute_all_rules D rb :=
  ⟨load_save_roundtrip rb, rb, load_save_roundtrip rb, rfl⟩

/-- C8 witness: a one-row tabular source built, exported, reloaded and
re-executed on a one-row dataset. -/
theorem c8_round_trip_witness :
    load_json_rulebook (save_rulebook_json
        ⟨[("a", [⟨RuleKind.notNull, "Completeness", "m"⟩])], []⟩) =
      Except.ok ⟨[("a", [⟨RuleKind.notNull, "Completeness", "m"⟩])], []⟩ ∧
    ∃ rb2, load_json_rulebook (save_rulebook_json
        ⟨[("a", [⟨RuleKind.notNull, "Completeness", "m"⟩])], []⟩) = Except.ok rb2 ∧
      execute_all_rules ⟨1, [("a", [Value.str "x"])]⟩ rb2 =
        execute_all_rules ⟨1, [("a", [Value.str "x"])]⟩
          ⟨[("a", [⟨RuleKind.notNull, "Completeness", "m"⟩])], []⟩ :=
  c8_round_trip [⟨"a", "not null", "Completeness", "m", {}⟩] ["a"]
    ⟨1, [("a", [Value.str "x"])]⟩
    ⟨[("a", [⟨RuleKind.notNull, "Completeness", "m"⟩])], []⟩ [] (by rfl)

/-- C9: each row's `Count of issues` equals the number of failed rule
columns for that row, split as the column-rule failures plus the
duplicate-flag contributions; it is defined (a natural number) for every
row of the table. -/
theorem c9_count_of_issues (D : Dataset) (R : Rulebook) (i : Nat) (hi : i < D.nrows) :
    (countOfIssues (execute_all_rules D R)).length = D.nrows ∧
    (countOfIssues (execute_all_rules D R)).getD i 0 =
      (columnRuleCols D R).countP (fun rc => rc.passes.getD i true = false) +
        (comboCols D R).countP (fun rc => rc.passes.getD i true = false) := by
  constructor
  · simp [countOfIssues, execute_all_rules]
  · have hgd : (countOfIssues (execute_all_rules D R)).getD i 0
        = (execute_all_rules D R).ruleCols.countP
            (fun rc => rc.passes.getD i true = false) := by
      unfold countOfIssues
      rw [List.getD_eq_getElem?_getD]
      have hi2 : i < (execute_all_rules D R).nrows := hi
      simp [List.getElem?_map, List.getElem?_range hi2]
    rw [hgd]
    show (columnRuleCols D R ++ comboCols D R).countP
        (fun rc => rc.passes.getD i true = false) = _
    rw [List.countP_append]

/-- C9 witness at row 0 of a concrete dataset with one rule and one
combination. -/
theorem c9_count_of_issues_witness :
    (countOfIssues (execute_all_rules ⟨2, [("a", [Value.missing, Value.missing])]⟩
        ⟨[("a", [⟨RuleKind.notNull, "Completeness", "m"⟩])], [["a"]]⟩)).length = 2 ∧
    (countOfIssues (execute_all_rules ⟨2, [("a", [Value.missing, Value.missing])]⟩
        ⟨[("a", [⟨RuleKind.notNull, "Completeness", "m"⟩])], [["a"]]⟩)).getD 0 0 =
      (columnRuleCols ⟨2, [("a", [Value.missing, Value.missing])]⟩
          ⟨[("a", [⟨RuleKind.notNull, "Completeness", "m"⟩])], [["a"]]⟩).countP
          (fun rc => rc.passes.getD 0 true = false) +
        (comboCols ⟨2, [("a", [Value.missing, Value.missing])]⟩
          ⟨[("a", [⟨RuleKind.notNull, "Completeness", "m"⟩])], [["a"]]⟩).countP
          (fun rc => rc.passes.getD 0 true = false) :=
  c9_count_of_issues ⟨2, [("a", [Value.missing, Value.missing])]⟩
    ⟨[("a", [⟨RuleKind.notNull, "Completeness", "m"⟩])], [["a"]]⟩ 0 (by decide)

/-- C5: summing per-dimension pass and total counts over all dimensions
equals the pass and total counts used for the overall score, and the
overall score equals the ratio recomputed independently from the flattened
boolean columns of the outcome table. -/
theorem c5_score_consistency (T : OutcomeTable) :
    ((dimensionTallies T).map (fun e => e.2.1)).sum = passEvals T ∧
    ((dimensionTallies T).map (fun e => e.2.2)).sum = totalEvals T ∧
    calculate_overall_score T = overallRecomputed T := by
  refine ⟨?_, ?_, ?_⟩
  · rw [dimensionTallies, tallies_foldl_psum]; simp [passEvals]
  · rw [dimensionTallies, tallies_foldl_tsum]; simp [totalEvals]
  · have hlen : (flatOutcomes T).length = totalEvals T := by
      unfold flatOutcomes totalEvals
      rw [List.length_flatten, List.map_map]
      rfl
    have hcnt : (flatOutcomes T).countP (fun b => b = true) = passEvals T := by
      unfold flatOutcomes passEvals
      rw [List.countP_flatten, List.map_map]
      rfl
    rw [calculate_overall_score_eq]
    simp only [overallRecomputed, hlen, hcnt]

end DataStudio
